import Mathlib

/-!
Verification development for the `pronounce-word` repository
(`src/pronounce-word.py`, class `PronounceWord`).

The word-metadata cache is a Python dict mapping a word string to a record
dict with six fields (source lines 47-57).  We embed the record as a
structure, the dict as an association list, and each operation of the class
as a pure function.  External collaborators are modelled as parameters:

* the Resolver (`_fetch_audio_urls_and_speaker_info`) is a parameter of
  type `Option (List (String × String × String))` - `none` models the
  not-found signal (the function returning `(None, None)`), `some l`
  models a page yielding the ordered descriptors `(url, (sex, location))`;
* the filesystem is a predicate `fs : Nat → Bool` giving, per slot index of
  the word under consideration, whether its cached audio file exists;
* the per-index remote download outcome is `fetchOk : Nat → Bool`
  (`_download_file` returning status 200 or not).

Python runtime exceptions (`sys.exit`, `ZeroDivisionError` from `% 0`,
`IndexError`, `KeyError`) are modelled with the `PyOutcome` error type.
-/

/-- One value of the per-word metadata dict (source lines 47-57 and
`_initialize_word_metadata`, lines 182-192). -/
structure WordRecord where
  num_pronounciations : Nat
  cycle_index : Nat
  audio_urls : List String
  speaker_info : List (String × String)
  disabled : List Bool
  downloaded : List Bool
deriving Repr, DecidableEq

/-- The `self._word_data` dict: an association list from word to record. -/
abbrev WordData := List (String × WordRecord)

/-- Dict lookup `self._word_data[word]` (as an `Option`). -/
def getWord : WordData → String → Option WordRecord
  | [], _ => none
  | (w', r) :: rest, w => if w' = w then some r else getWord rest w

/-- Membership test `word in self._word_data`. -/
def hasWord (d : WordData) (w : String) : Bool :=
  (getWord d w).isSome

/-- Dict write `self._word_data[word] = r` (replaces an existing binding,
otherwise appends a new one). -/
def setWord : WordData → String → WordRecord → WordData
  | [], w, r => [(w, r)]
  | (w', r') :: rest, w, r =>
      if w' = w then (w, r) :: rest else (w', r') :: setWord rest w r

/-- Dict deletion `del self._word_data[word]` as performed by
`_clear_word_metadata` (source lines 194-196); deleting an absent key is a
no-op there because of the membership guard. -/
def delWord : WordData → String → WordData
  | [], _ => []
  | (w', r) :: rest, w =>
      if w' = w then delWord rest w else (w', r) :: delWord rest w

/-- `MAX_FILES_PER_WORD` (source line 22). -/
def MAX_FILES_PER_WORD : Nat := 20

/-- The fresh `word_metadata` dict built by `_initialize_word_metadata`
(source lines 184-191). -/
def freshRecord : WordRecord :=
  { num_pronounciations := 0
    cycle_index := 0
    audio_urls := []
    speaker_info := []
    disabled := []
    downloaded := [] }

/-- `_initialize_word_metadata(word, override)` (source lines 182-192). -/
def initialize_word_metadata (d : WordData) (w : String) (override : Bool) :
    WordData :=
  if !hasWord d w || override then setWord d w freshRecord else d

/-- Resolver outcome at the boundary of
`_fetch_audio_urls_and_speaker_info`: `none` is the not-found signal,
`some l` the ordered list of `(audio url, (sex, location))` descriptors. -/
abbrev Resolver := Option (List (String × String × String))

/-- Result of `_populate_word_metadata`: the returned boolean, the updated
dict, and how many Resolver fetches were performed (0 or 1). -/
structure PopulateResult where
  found : Bool
  data : WordData
  fetches : Nat
deriving Repr, DecidableEq

/-- `_populate_word_metadata(word, override)` (source lines 239-264).
When the word is absent or `override` is set it initializes a fresh record
and performs the Resolver fetch: on not-found it clears the record and
returns `False`; otherwise it stores `num_pronounciations =
min(len(audio_urls), MAX_FILES_PER_WORD)`, truncates `audio_urls` to that
length, stores `speaker_info` untruncated (line 253), and all-false
`disabled`/`downloaded` of that length.  Otherwise it is a cache hit. -/
def populate_word_metadata (d : WordData) (w : String) (override : Bool)
    (resolver : Resolver) : PopulateResult :=
  if !hasWord d w || override then
    let d1 := initialize_word_metadata d w override
    match resolver with
    | none => { found := false, data := delWord d1 w, fetches := 1 }
    | some l =>
        let audio_urls := l.map (fun x => x.1)
        let speaker_info := l.map (fun x => x.2)
        let n := min audio_urls.length MAX_FILES_PER_WORD
        let r0 := (getWord d1 w).getD freshRecord
        { found := true
          data := setWord d1 w
            { r0 with
              num_pronounciations := n
              audio_urls := audio_urls.take n
              speaker_info := speaker_info
              disabled := List.replicate n false
              downloaded := List.replicate n false }
          fetches := 1 }
  else { found := true, data := d, fetches := 0 }

/-- The record built by a populate call that performed a successful fetch
on resolver result `l` (the field assignments of source lines 250-255
applied to the freshly initialized record). -/
def builtRecord (l : List (String × String × String)) : WordRecord :=
  { num_pronounciations := min l.length MAX_FILES_PER_WORD
    cycle_index := 0
    audio_urls := (l.map (fun x => x.1)).take (min l.length MAX_FILES_PER_WORD)
    speaker_info := l.map (fun x => x.2)
    disabled := List.replicate (min l.length MAX_FILES_PER_WORD) false
    downloaded := List.replicate (min l.length MAX_FILES_PER_WORD) false }

/-- Invariant I1 of the spec: the four parallel sequences of a record all
have length `num_pronounciations`. -/
def recordConsistent (r : WordRecord) : Bool :=
  r.audio_urls.length == r.num_pronounciations
    && r.speaker_info.length == r.num_pronounciations
    && r.disabled.length == r.num_pronounciations
    && r.downloaded.length == r.num_pronounciations

theorem getWord_setWord_self (d : WordData) (w : String) (r : WordRecord) :
    getWord (setWord d w r) w = some r := by
  induction d with
  | nil => simp [setWord, getWord]
  | cons p rest ih =>
      obtain ⟨w', r'⟩ := p
      by_cases h : w' = w
      · simp [setWord, h, getWord]
      · simp [setWord, h, getWord, ih]

theorem getWord_delWord_self (d : WordData) (w : String) :
    getWord (delWord d w) w = none := by
  induction d with
  | nil => simp [delWord, getWord]
  | cons p rest ih =>
      obtain ⟨w', r'⟩ := p
      by_cases h : w' = w
      · simp [delWord, h, ih]
      · simp [delWord, h, getWord, ih]

theorem setWord_setWord (d : WordData) (w : String) (r1 r2 : WordRecord) :
    setWord (setWord d w r1) w r2 = setWord d w r2 := by
  induction d with
  | nil => simp [setWord]
  | cons p rest ih =>
      obtain ⟨w', r'⟩ := p
      by_cases h : w' = w
      · simp [setWord, h]
      · simp [setWord, h, ih]

theorem populate_cache_hit (d : WordData) (w : String) (res : Resolver)
    (h : hasWord d w = true) :
    populate_word_metadata d w false res =
      { found := true, data := d, fetches := 0 } := by
  simp [populate_word_metadata, h]

theorem populate_fetch_found (d : WordData) (w : String) (override : Bool)
    (l : List (String × String × String))
    (h : hasWord d w = false ∨ override = true) :
    populate_word_metadata d w override (some l) =
      { found := true, data := setWord d w (builtRecord l), fetches := 1 } := by
  have hc : (!hasWord d w || override) = true := by
    rcases h with h | h <;> simp [h]
  simp only [populate_word_metadata, initialize_word_metadata, hc, if_true]
  rw [getWord_setWord_self]
  rw [setWord_setWord]
  simp [builtRecord, freshRecord, List.length_map]

theorem populate_fetch_not_found (d : WordData) (w : String) (override : Bool)
    (h : hasWord d w = false ∨ override = true) :
    populate_word_metadata d w override none =
      { found := false, data := delWord (setWord d w freshRecord) w,
        fetches := 1 } := by
  have hc : (!hasWord d w || override) = true := by
    rcases h with h | h <;> simp [h]
  simp [populate_word_metadata, initialize_word_metadata, hc]

theorem populate_found_hasWord (d : WordData) (w : String) (override : Bool)
    (res : Resolver)
    (h : (populate_word_metadata d w override res).found = true) :
    hasWord (populate_word_metadata d w override res).data w = true := by
  by_cases hc : (!hasWord d w || override) = true
  · match res with
    | none =>
        exfalso
        simp [populate_word_metadata, initialize_word_metadata, hc] at h
    | some l =>
        simp only [populate_word_metadata, initialize_word_metadata, hc,
          if_true]
        simp [hasWord, getWord_setWord_self]
  · simp only [populate_word_metadata, hc, if_false]
    simp only [Bool.or_eq_true, Bool.not_eq_true'] at hc
    push_neg at hc
    simpa [Bool.not_eq_true] using hc.1

theorem populate_fetches_le_one (d : WordData) (w : String) (override : Bool)
    (res : Resolver) :
    (populate_word_metadata d w override res).fetches ≤ 1 := by
  by_cases hc : (!hasWord d w || override) = true
  · match res with
    | none => simp [populate_word_metadata, hc]
    | some l => simp [populate_word_metadata, hc]
  · simp [populate_word_metadata, hc]

/-- Outcome of running a (possibly exiting or crashing) method of the
class: `exit c` models `sys.exit(c)`, `zeroDiv` a Python
`ZeroDivisionError` (integer `% 0`), `indexErr` an `IndexError` on list
subscription, `keyErr` a `KeyError` on dict subscription. -/
inductive PyOutcome (α : Type) where
  | exit (code : Nat)
  | zeroDiv
  | indexErr
  | keyErr
  | ok (a : α)
deriving Repr, DecidableEq

/-- Sequencing of fallible steps: an exception propagates. -/
def PyOutcome.bind {α β : Type} :
    PyOutcome α → (α → PyOutcome β) → PyOutcome β
  | .exit c, _ => .exit c
  | .zeroDiv, _ => .zeroDiv
  | .indexErr, _ => .indexErr
  | .keyErr, _ => .keyErr
  | .ok a, f => f a

/-- `populate_word_metadata_or_exit(word)` (source lines 146-149):
`sys.exit(1)` when the word could not be found. -/
def populate_word_metadata_or_exit (d : WordData) (w : String)
    (res : Resolver) : PyOutcome WordData :=
  let p := populate_word_metadata d w false res
  if p.found then .ok p.data else .exit 1

/-- `_download_if_not_available(word, index)` (source lines 71-86) for the
record of the word: when the file is absent or downloads are forced it
reads `audio_urls[index]` (an `IndexError` when out of range) and attempts
the download, adding the file to the filesystem on success; otherwise the
cached file counts as success.  Returns the success flag and the updated
per-slot filesystem. -/
def download_if_not_available (r : WordRecord) (fs : Nat → Bool)
    (force : Bool) (fetchOk : Nat → Bool) (index : Nat) :
    PyOutcome (Bool × (Nat → Bool)) :=
  if !fs index || force then
    match r.audio_urls.get? index with
    | none => .indexErr
    | some _ =>
        if fetchOk index then
          .ok (true, fun j => if j = index then true else fs j)
        else .ok (false, fs)
  else .ok (true, fs)

/-- `_audit_downloaded(word)` (source lines 266-274): overwrite
`downloaded` with the disk truth for every slot and return how many slots
are still missing. -/
def audit_downloaded (r : WordRecord) (fs : Nat → Bool) :
    WordRecord × Nat :=
  let dl := (List.range r.num_pronounciations).map fs
  ({ r with downloaded := dl }, dl.length - dl.count true)

/-- Helper for the worker-pool batch of
`_download_remaining_if_not_available` (source lines 296-303), walking the
`downloaded` list with its running index: an index is submitted iff it is
not the excluded index and not already marked downloaded, and its slot
ends up holding its own fetch result; every other slot keeps its value.
The batch is modelled over the `downloaded` list, whose length equals
`len(audio_urls)` on records satisfying invariant I1 (the enumeration in
the source runs over `audio_urls`). -/
def download_batch_from (skip : Int) (fetchOk : Nat → Bool) :
    Nat → List Bool → List Bool
  | _, [] => []
  | i, b :: rest =>
      (if (Int.ofNat i != skip) && !b then fetchOk i else b)
        :: download_batch_from skip fetchOk (i + 1) rest

/-- The parallel download batch of lines 296-303 started at index 0. -/
def download_batch (downloaded : List Bool) (skip : Int)
    (fetchOk : Nat → Bool) : List Bool :=
  download_batch_from skip fetchOk 0 downloaded

/-- `_download_remaining_if_not_available(word, index_to_skip)` (source
lines 276-303) acting on the word's record: early return when everything
is marked downloaded (unless forcing), reconcile `downloaded` with the
disk, early return when nothing is missing (unless forcing), reset
`downloaded` to all-false when forcing, then run the download batch. -/
def download_remaining_if_not_available (r : WordRecord) (fs : Nat → Bool)
    (force : Bool) (fetchOk : Nat → Bool) (skip : Int) : WordRecord :=
  if r.downloaded.all (fun b => b) && !force then r
  else
    let a := audit_downloaded r fs
    if a.2 == 0 && !force then a.1
    else
      let r2 :=
        if force then
          { a.1 with
            downloaded := List.replicate a.1.num_pronounciations false }
        else a.1
      { r2 with downloaded := download_batch r2.downloaded skip fetchOk }

/-- `pronounce(word, pronunciation_index)` (source lines 165-173):
populate-or-exit, then the synchronous primary-slot download (`sys.exit(1)`
on failure), the opaque playback, and the bulk remainder download with the
played index excluded. -/
def pronounce (d : WordData) (fs : Nat → Bool) (force : Bool)
    (fetchOk : Nat → Bool) (res : Resolver) (w : String) (idx : Nat) :
    PyOutcome WordData :=
  (populate_word_metadata_or_exit d w res).bind fun d1 =>
    match getWord d1 w with
    | none => .keyErr
    | some r =>
        (download_if_not_available r fs force fetchOk idx).bind
          fun sfs =>
            if sfs.1 then
              .ok (setWord d1 w
                (download_remaining_if_not_available r sfs.2 force fetchOk
                  (Int.ofNat idx)))
            else .exit 1

/-- `cycle_pronounciations(word, num_to_cycle)` (source lines 151-163):
populate-or-exit, compute the effective window, reset the cursor when it
falls outside the window, play that slot via `pronounce`, then store
`(cycle_index + 1) % num_to_cycle` - a `ZeroDivisionError` when the
effective window is zero.  The returned pair is the final dict and the
slot index that was played. -/
def cycle_pronounciations (d : WordData) (fs : Nat → Bool) (force : Bool)
    (fetchOk : Nat → Bool) (res : Resolver) (w : String)
    (num_to_cycle : Int) : PyOutcome (WordData × Nat) :=
  (populate_word_metadata_or_exit d w res).bind fun d1 =>
    match getWord d1 w with
    | none => .keyErr
    | some r =>
        let ntc : Nat :=
          if num_to_cycle > 0 then
            min r.num_pronounciations num_to_cycle.toNat
          else r.num_pronounciations
        let c1 : Nat :=
          if (r.cycle_index : Int) > (ntc : Int) - 1 then 0
          else r.cycle_index
        (pronounce d1 fs force fetchOk res w c1).bind fun d2 =>
          match getWord d2 w with
          | none => .keyErr
          | some r2 =>
              if ntc = 0 then .zeroDiv
              else
                .ok (setWord d2 w { r2 with cycle_index := (c1 + 1) % ntc },
                  c1)

/-! Concrete records and inputs used by the claim theorems. -/

/-- A resolver page yielding 21 pronunciation descriptors (one more than
`MAX_FILES_PER_WORD`). -/
def l21 : List (String × String × String) := List.replicate 21 ("u", "m", "l")

/-- A pre-existing partial record (some metadata, not all of it). -/
def partialRec : WordRecord :=
  { num_pronounciations := 2
    cycle_index := 1
    audio_urls := ["u"]
    speaker_info := []
    disabled := [false]
    downloaded := [true] }

/-- A record holding a nonzero cycling cursor. -/
def cursorRec : WordRecord :=
  { num_pronounciations := 1
    cycle_index := 3
    audio_urls := ["u"]
    speaker_info := [("m", "l")]
    disabled := [false]
    downloaded := [false] }

/-- A stored record violating invariant I1: it claims one pronunciation
but all four parallel sequences are empty. -/
def inconsistentRec : WordRecord :=
  { num_pronounciations := 1
    cycle_index := 0
    audio_urls := []
    speaker_info := []
    disabled := []
    downloaded := [] }

/-- Claim C1 (code bug): invariant I1 does not survive every public
operation.  Populating a fresh word whose resolver page yields 21
descriptors stores `num_pronounciations = 20` and a 20-element
`audio_urls` but leaves `speaker_info` untruncated at 21 entries (source
line 253), so the record at rest violates I1. -/
theorem populate_speaker_info_breaks_I1 :
    Option.map
        (fun r => (r.num_pronounciations, r.speaker_info.length,
          r.audio_urls.length, recordConsistent r))
        (getWord (populate_word_metadata [] "w" false (some l21)).data "w")
      = some (20, 21, 20, false) := by decide

/-- Claim C2 counterexample: for a resolver result of length `L = 21` the
stored `speaker_info` has length 21, not `min(L, MAX_FILES_PER_WORD) = 20`
- the claim that BOTH `audio_urls` and `speaker_info` are truncated is
false. -/
theorem populate_truncation_counterexample :
    Option.map (fun r => r.speaker_info.length)
        (getWord (populate_word_metadata [] "w" false (some l21)).data "w")
      = some 21
    ∧ (21 : Nat) ≠ min 21 MAX_FILES_PER_WORD := by decide

/-- Claim C2 (amended): a populate call that performs the fetch on a
resolver result of length `L` stores `num_pronounciations =
min(L, MAX_FILES_PER_WORD)`, truncates `audio_urls` to exactly that
length, stores `speaker_info` as the full resolved list of length `L`
(untruncated), and makes `disabled` and `downloaded` all-false lists of
length `num_pronounciations`. -/
theorem populate_fresh_record_fields (d : WordData) (w : String)
    (override : Bool) (l : List (String × String × String))
    (h : hasWord d w = false ∨ override = true) :
    ∃ r',
      getWord (populate_word_metadata d w override (some l)).data w = some r'
      ∧ r'.num_pronounciations = min l.length MAX_FILES_PER_WORD
      ∧ r'.audio_urls
          = (l.map (fun x => x.1)).take (min l.length MAX_FILES_PER_WORD)
      ∧ r'.audio_urls.length = min l.length MAX_FILES_PER_WORD
      ∧ r'.speaker_info = l.map (fun x => x.2)
      ∧ r'.speaker_info.length = l.length
      ∧ r'.disabled = List.replicate (min l.length MAX_FILES_PER_WORD) false
      ∧ r'.downloaded
          = List.replicate (min l.length MAX_FILES_PER_WORD) false := by
  rw [populate_fetch_found d w override l h]
  refine ⟨builtRecord l, getWord_setWord_self _ _ _, rfl, rfl, ?_, rfl, ?_,
    rfl, rfl⟩
  · simp only [builtRecord, List.length_take, List.length_map]
    omega
  · simp [builtRecord]

/-- Witness for the amended C2 theorem at the 21-descriptor input. -/
theorem populate_fresh_record_fields_witness :
    ∃ r',
      getWord (populate_word_metadata [] "w" false (some l21)).data "w"
        = some r'
      ∧ r'.num_pronounciations = min l21.length MAX_FILES_PER_WORD
      ∧ r'.audio_urls
          = (l21.map (fun x => x.1)).take (min l21.length MAX_FILES_PER_WORD)
      ∧ r'.audio_urls.length = min l21.length MAX_FILES_PER_WORD
      ∧ r'.speaker_info = l21.map (fun x => x.2)
      ∧ r'.speaker_info.length = l21.length
      ∧ r'.disabled = List.replicate (min l21.length MAX_FILES_PER_WORD) false
      ∧ r'.downloaded
          = List.replicate (min l21.length MAX_FILES_PER_WORD) false :=
  populate_fresh_record_fields [] "w" false l21 (Or.inl rfl)

/-- Claim C6: when the Resolver signals not-found, a populate that
performs the fetch (absent word, or any word under `override`) removes the
word's record from the mapping and returns `False`; a play invocation
(`cycle_pronounciations`) reaching that path terminates with `sys.exit 1`. -/
theorem populate_not_found_clears_and_exits :
    (∀ (d : WordData) (w : String) (override : Bool),
      hasWord d w = false ∨ override = true →
      (populate_word_metadata d w override none).found = false
      ∧ getWord (populate_word_metadata d w override none).data w = none)
    ∧ (∀ (d : WordData) (w : String) (fs : Nat → Bool) (force : Bool)
          (fOk : Nat → Bool) (ntc : Int),
        hasWord d w = false →
        cycle_pronounciations d fs force fOk none w ntc
          = PyOutcome.exit 1) := by
  constructor
  · intro d w override h
    rw [populate_fetch_not_found d w override h]
    exact ⟨rfl, getWord_delWord_self _ _⟩
  · intro d w fs force fOk ntc h
    have hp := populate_fetch_not_found d w false (Or.inl h)
    simp [cycle_pronounciations, populate_word_metadata_or_exit, hp,
      PyOutcome.bind]

/-- Witness for C6: a word with a pre-existing partial record is cleared
under `override`, and a play invocation on an unknown word exits with
status 1. -/
theorem populate_not_found_clears_and_exits_witness :
    ((populate_word_metadata [("w", partialRec)] "w" true none).found = false
      ∧ getWord (populate_word_metadata [("w", partialRec)] "w" true
          none).data "w" = none)
    ∧ cycle_pronounciations [] (fun _ => true) false (fun _ => true) none
        "w" (-1) = PyOutcome.exit 1 :=
  ⟨populate_not_found_clears_and_exits.1 [("w", partialRec)] "w" true
      (Or.inr rfl),
    populate_not_found_clears_and_exits.2 [] "w" (fun _ => true) false
      (fun _ => true) (-1) rfl⟩

/-- Claim C7: calling populate twice with `override = false` performs the
fetch at most once - when the first call reports found, the second call
performs no fetch, returns true, and leaves the mapping identical. -/
theorem populate_idempotent_cache_hit (d : WordData) (w : String)
    (res : Resolver)
    (h : (populate_word_metadata d w false res).found = true) :
    (populate_word_metadata (populate_word_metadata d w false res).data w
        false res).fetches = 0
    ∧ (populate_word_metadata (populate_word_metadata d w false res).data w
        false res).found = true
    ∧ (populate_word_metadata (populate_word_metadata d w false res).data w
        false res).data = (populate_word_metadata d w false res).data
    ∧ (populate_word_metadata d w false res).fetches
        + (populate_word_metadata (populate_word_metadata d w false
            res).data w false res).fetches ≤ 1 := by
  have hw := populate_found_hasWord d w false res h
  rw [populate_cache_hit (populate_word_metadata d w false res).data w res hw]
  refine ⟨rfl, rfl, rfl, ?_⟩
  simpa using populate_fetches_le_one d w false res

/-- Witness for C7 at a fresh word with a one-descriptor resolver page. -/
theorem populate_idempotent_cache_hit_witness :
    (populate_word_metadata
        (populate_word_metadata [] "w" false (some [("u", "m", "l")])).data
        "w" false (some [("u", "m", "l")])).fetches = 0
    ∧ (populate_word_metadata
        (populate_word_metadata [] "w" false (some [("u", "m", "l")])).data
        "w" false (some [("u", "m", "l")])).found = true
    ∧ (populate_word_metadata
        (populate_word_metadata [] "w" false (some [("u", "m", "l")])).data
        "w" false (some [("u", "m", "l")])).data
      = (populate_word_metadata [] "w" false (some [("u", "m", "l")])).data
    ∧ (populate_word_metadata [] "w" false (some [("u", "m", "l")])).fetches
        + (populate_word_metadata
            (populate_word_metadata [] "w" false
              (some [("u", "m", "l")])).data
            "w" false (some [("u", "m", "l")])).fetches ≤ 1 :=
  populate_idempotent_cache_hit [] "w" (some [("u", "m", "l")]) (by decide)

/-- Claim C8 counterexample: re-populating a word holding cursor
`cycle_index = 3` with `override = true` stores `cycle_index = 0` - the
cursor is NOT preserved, because `_initialize_word_metadata` under
`override` replaces the whole record with the fresh all-zero one before
the fetched fields are written. -/
theorem populate_override_cycle_counterexample :
    Option.map WordRecord.cycle_index
        (getWord (populate_word_metadata [("w", cursorRec)] "w" true
          (some [("u2", "f", "x")])).data "w") = some 0
    ∧ (0 : Nat) ≠ 3 := by decide

/-- Claim C8 (amended): any populate call that performs the fetch - in
particular a re-population with `override = true` of a word with a
pre-existing record - resets the stored `cycle_index` to 0; the cursor
does not survive re-population. -/
theorem populate_fetch_resets_cycle_index (d : WordData) (w : String)
    (override : Bool) (l : List (String × String × String))
    (h : hasWord d w = false ∨ override = true) :
    Option.map WordRecord.cycle_index
      (getWord (populate_word_metadata d w override (some l)).data w)
      = some 0 := by
  rw [populate_fetch_found d w override l h, getWord_setWord_self]
  rfl

/-- Witness for the amended C8 theorem: override re-population of the
record with cursor 3. -/
theorem populate_fetch_resets_cycle_index_witness :
    Option.map WordRecord.cycle_index
      (getWord (populate_word_metadata [("w", cursorRec)] "w" true
        (some [("u2", "f", "x")])).data "w") = some 0 :=
  populate_fetch_resets_cycle_index [("w", cursorRec)] "w" true
    [("u2", "f", "x")] (Or.inr rfl)

/-- Claim C9 counterexample: a stored record violating I1 is still treated
as a cache hit - populate with `override = false` performs no fetch,
returns true, and leaves the inconsistent record in place. -/
theorem populate_incomplete_cache_hit_counterexample :
    recordConsistent inconsistentRec = false
    ∧ populate_word_metadata [("w", inconsistentRec)] "w" false
        (some [("u", "m", "l")])
      = { found := true, data := [("w", inconsistentRec)],
          fetches := 0 } := by decide

/-- Claim C9 (amended): `populate(word, override=false)` decides the cache
hit purely by key presence - any present record, even one violating
invariant I1, short-circuits the call with no Resolver fetch and an
unchanged mapping. -/
theorem populate_cache_hit_ignores_consistency (d : WordData) (w : String)
    (res : Resolver) (r : WordRecord) (hr : getWord d w = some r)
    (_hbad : recordConsistent r = false) :
    populate_word_metadata d w false res
      = { found := true, data := d, fetches := 0 } := by
  have hw : hasWord d w = true := by simp [hasWord, hr]
  exact populate_cache_hit d w res hw

/-- Witness for the amended C9 theorem at the inconsistent record. -/
theorem populate_cache_hit_ignores_consistency_witness :
    populate_word_metadata [("w", inconsistentRec)] "w" false
        (some [("u", "m", "l")])
      = { found := true, data := [("w", inconsistentRec)], fetches := 0 } :=
  populate_cache_hit_ignores_consistency [("w", inconsistentRec)] "w"
    (some [("u", "m", "l")]) inconsistentRec rfl rfl

/-- Claim C10: a successful page fetch extracting zero audio URLs makes
populate return true and install a record with `num_pronounciations = 0`
and all four sequences empty; a subsequent cycling call on that word gets
past playback and evaluates `(cycle_index + 1) % num_to_cycle` with
`num_to_cycle = 0` - the modulo is unguarded and raises
`ZeroDivisionError` (modelled as `PyOutcome.zeroDiv`). -/
theorem populate_empty_urls_cycle_zero_div :
    populate_word_metadata [] "w" false (some [])
      = { found := true, data := [("w", freshRecord)], fetches := 1 }
    ∧ freshRecord.num_pronounciations = 0
    ∧ freshRecord.audio_urls = []
    ∧ freshRecord.speaker_info = []
    ∧ freshRecord.disabled = []
    ∧ freshRecord.downloaded = []
    ∧ cycle_pronounciations [("w", freshRecord)] (fun _ => true) false
        (fun _ => true) (some []) "w" (-1) = PyOutcome.zeroDiv := by decide

/-- A concrete five-pronunciation record (all files cached) with cursor
`c`, used to replay the cycling examples of the claim. -/
def cycleDemoRecord (c : Nat) : WordRecord :=
  { num_pronounciations := 5
    cycle_index := c
    audio_urls := ["u0", "u1", "u2", "u3", "u4"]
    speaker_info := [("m", "s0"), ("f", "s1"), ("m", "s2"), ("f", "s3"),
      ("m", "s4")]
    disabled := [false, false, false, false, false]
    downloaded := [true, true, true, true, true] }

theorem count_replicate_true (n : Nat) :
    (List.replicate n true).count true = n := by
  induction n with
  | zero => rfl
  | succ n ih => simp [List.replicate, List.count_cons, ih]

theorem download_remaining_all_on_disk (r : WordRecord) (fOk : Nat → Bool)
    (skip : Int) :
    download_remaining_if_not_available r (fun _ => true) false fOk skip
      = if r.downloaded.all (fun b => b) then r
        else { r with
          downloaded := List.replicate r.num_pronounciations true } := by
  by_cases hall : r.downloaded.all (fun b => b)
  · simp [download_remaining_if_not_available, hall]
  · have hmap : (List.range r.num_pronounciations).map
        ((fun _ => true) : Nat → Bool)
        = List.replicate r.num_pronounciations true := by
      rw [List.map_const']
      rw [List.length_range]
    simp only [download_remaining_if_not_available, hall, Bool.false_and,
      Bool.and_false, Bool.false_eq_true, if_false, Bool.not_false,
      Bool.and_true, audit_downloaded, hmap]
    simp [count_replicate_true]

theorem pronounce_cached_on_disk (d : WordData) (w : String)
    (r : WordRecord) (fOk : Nat → Bool) (res : Resolver) (idx : Nat)
    (hr : getWord d w = some r) :
    pronounce d (fun _ => true) false fOk res w idx
      = PyOutcome.ok (setWord d w
          (download_remaining_if_not_available r (fun _ => true) false fOk
            (Int.ofNat idx))) := by
  have hw : hasWord d w = true := by simp [hasWord, hr]
  have hpop := populate_cache_hit d w res hw
  have hpoe : populate_word_metadata_or_exit d w res = .ok d := by
    simp [populate_word_metadata_or_exit, hpop]
  simp [pronounce, hpoe, PyOutcome.bind, hr, download_if_not_available]

/-- Claim C3: for a record with `N = num_pronounciations ≥ 1` and cursor
`c`, a cycling call with bound `numToCycle` uses the effective window
`W = min(numToCycle, N)` when `numToCycle > 0` and `W = N` otherwise,
first resets the cursor to 0 when `c ≥ W`, plays that slot, and stores
`cycle_index = (played + 1) % W`.  In particular over `N = 5`: three
consecutive calls with `numToCycle = 3` from cursor 0 play slots 0, 1, 2
and leave the cursor at 0; and from cursor 4 a call with `numToCycle = 2`
plays slot 0, not slot 4. -/
theorem cycle_pronounciations_window :
    (∀ (d : WordData) (w : String) (r : WordRecord) (ntc : Int)
        (fOk : Nat → Bool) (res : Resolver),
      getWord d w = some r → 1 ≤ r.num_pronounciations →
      ∃ d' r',
        cycle_pronounciations d (fun _ => true) false fOk res w ntc
          = PyOutcome.ok (d',
              if (if 0 < ntc then min ntc.toNat r.num_pronounciations
                  else r.num_pronounciations) ≤ r.cycle_index
              then 0 else r.cycle_index)
        ∧ getWord d' w = some r'
        ∧ r'.cycle_index
            = ((if (if 0 < ntc then min ntc.toNat r.num_pronounciations
                    else r.num_pronounciations) ≤ r.cycle_index
                then 0 else r.cycle_index) + 1)
              % (if 0 < ntc then min ntc.toNat r.num_pronounciations
                 else r.num_pronounciations))
    ∧ (∃ d1 d2 d3 : WordData,
        cycle_pronounciations [("cat", cycleDemoRecord 0)] (fun _ => true)
            false (fun _ => true) none "cat" 3 = PyOutcome.ok (d1, 0)
        ∧ cycle_pronounciations d1 (fun _ => true) false (fun _ => true)
            none "cat" 3 = PyOutcome.ok (d2, 1)
        ∧ cycle_pronounciations d2 (fun _ => true) false (fun _ => true)
            none "cat" 3 = PyOutcome.ok (d3, 2)
        ∧ Option.map WordRecord.cycle_index (getWord d3 "cat") = some 0)
    ∧ (∃ d4 : WordData,
        cycle_pronounciations [("cat", cycleDemoRecord 4)] (fun _ => true)
          false (fun _ => true) none "cat" 2 = PyOutcome.ok (d4, 0)) := by
  refine ⟨?_, ?_, ?_⟩
  · intro d w r ntc fOk res hr hN
    have hw : hasWord d w = true := by simp [hasWord, hr]
    have hpoe : populate_word_metadata_or_exit d w res = .ok d := by
      simp [populate_word_metadata_or_exit, populate_cache_hit d w res hw]
    set W : Nat :=
      if 0 < ntc then min ntc.toNat r.num_pronounciations
      else r.num_pronounciations with hWdef
    have hW1 : 1 ≤ W := by
      rw [hWdef]
      by_cases h : 0 < ntc <;> simp [h] <;> omega
    have hWmodel :
        (if ntc > 0 then min r.num_pronounciations ntc.toNat
         else r.num_pronounciations) = W := by
      rw [hWdef]
      by_cases h : 0 < ntc <;> simp [h, Nat.min_comm]
    have hc1 :
        (if (r.cycle_index : Int) > (W : Int) - 1 then 0 else r.cycle_index)
          = if W ≤ r.cycle_index then 0 else r.cycle_index := by
      by_cases h : W ≤ r.cycle_index
      · rw [if_pos h, if_pos (by omega)]
      · rw [if_neg (by omega), if_neg h]
    set c1 : Nat := if W ≤ r.cycle_index then 0 else r.cycle_index
      with hc1def
    have hpr := pronounce_cached_on_disk d w r fOk res c1 hr
    have hdl := download_remaining_all_on_disk r fOk (Int.ofNat c1)
    set rdl : WordRecord :=
      if r.downloaded.all (fun b => b) then r
      else { r with downloaded := List.replicate r.num_pronounciations true }
      with hrdldef
    have hW0 : ¬ W = 0 := by omega
    refine ⟨setWord (setWord d w rdl) w { rdl with cycle_index := (c1 + 1) % W },
      { rdl with cycle_index := (c1 + 1) % W }, ?_, getWord_setWord_self _ _ _, rfl⟩
    simp only [cycle_pronounciations, hpoe, PyOutcome.bind, hr, hWmodel,
      hc1, hpr, hdl, getWord_setWord_self, hW0, if_false]
  · refine ⟨[("cat", cycleDemoRecord 1)], [("cat", cycleDemoRecord 2)],
      [("cat", cycleDemoRecord 0)], by decide, by decide, by decide,
      by decide⟩
  · exact ⟨[("cat", cycleDemoRecord 1)], by decide⟩

/-- Witness for C3's universal part: the window-shrink instance (cursor 4,
`N = 5`, bound 2) plays slot 0 and stores cursor 1. -/
theorem cycle_pronounciations_window_witness :
    ∃ d' r',
      cycle_pronounciations [("cat", cycleDemoRecord 4)] (fun _ => true)
          false (fun _ => true) none "cat" 2 = PyOutcome.ok (d', 0)
      ∧ getWord d' "cat" = some r'
      ∧ r'.cycle_index = 1 := by
  have h := cycle_pronounciations_window.1 [("cat", cycleDemoRecord 4)]
    "cat" (cycleDemoRecord 4) 2 (fun _ => true) none (by decide) (by decide)
  simpa using h

/-- Character class `[^_\d\.]` of the rebuild-scan regex
`([^_\d\.]*)(?:_(\d+))?\.mp3` (source line 93). -/
def isWordChar (c : Char) : Bool := !(c = '_') && !c.isDigit && !(c = '.')

/-- Numeric value of the digit run captured as the slot index
(`int(match.group(2))`, source line 103). -/
def digitsToNat (ds : List Char) : Nat :=
  ds.foldl (fun acc c => acc * 10 + (c.toNat - 48)) 0

/-- The literal `\.mp3` tail of the regex (`re.match` anchors only the
start, so trailing characters are irrelevant). -/
def hasMp3Ext : List Char → Bool
  | '.' :: 'm' :: 'p' :: '3' :: _ => true
  | _ => false

/-- One filename parse of the rebuild scan (source lines 93-106): the
regex `([^_\d\.]*)(?:_(\d+))?\.mp3` applied with `re.match` - a maximal
run of characters that are neither underscore, digit nor dot (the word),
then optionally an underscore followed by a digit run (the slot index),
then `.mp3`.  A bare `w.mp3` counts as index 0, `w_i.mp3` as index `i`;
a filename matching neither way is skipped with a warning. -/
def parseFilename (s : String) : Option (String × Nat) :=
  let cs := s.data
  let word := cs.takeWhile isWordChar
  let rest := cs.dropWhile isWordChar
  match rest with
  | '_' :: rest1 =>
      let ds := rest1.takeWhile Char.isDigit
      let rest2 := rest1.dropWhile Char.isDigit
      if ds = [] then none
      else if hasMp3Ext rest2 then some (String.mk word, digitsToNat ds)
      else none
  | _ => if hasMp3Ext rest then some (String.mk word, 0) else none

/-- The `num_seen` grouping loop of `_rebuild_word_data` (source lines
94-108): append each parsed slot index to its word's list, keeping
first-seen word order like a Python dict. -/
def addSeen : List (String × List Nat) → String → Nat →
    List (String × List Nat)
  | [], w, n => [(w, [n])]
  | (w', l) :: rest, w, n =>
      if w' = w then (w', l ++ [n]) :: rest
      else (w', l) :: addSeen rest w n

/-- The full scan of the cache directory listing. -/
def scanFiles (files : List String) : List (String × List Nat) :=
  files.foldl
    (fun acc f =>
      match parseFilename f with
      | some p => addSeen acc p.1 p.2
      | none => acc) []

/-- The record built for a word that is not already recorded, from its
observed slot indices `nums` (source lines 110-119): fresh record, then
`num_pronounciations = max(nums) + 1`, all-false `disabled` and
`downloaded` of that length, then `downloaded[i] = True` for each
observed `i`.  (The source computes `max(nums)` of the nonempty list;
`foldl Nat.max 0` coincides with it.) -/
def rebuild_scan_record (nums : List Nat) : WordRecord :=
  let n := nums.foldl Nat.max 0 + 1
  { num_pronounciations := n
    cycle_index := 0
    audio_urls := []
    speaker_info := []
    disabled := List.replicate n false
    downloaded :=
      nums.foldl (fun acc j => acc.set j true) (List.replicate n false) }

theorem le_foldl_max_init (l : List Nat) (b : Nat) :
    b ≤ l.foldl Nat.max b := by
  induction l generalizing b with
  | nil => simp
  | cons a t ih =>
      simp only [List.foldl_cons]
      exact le_trans (Nat.le_max_left b a) (ih (Nat.max b a))

theorem mem_le_foldl_max (l : List Nat) (b x : Nat) (hx : x ∈ l) :
    x ≤ l.foldl Nat.max b := by
  induction l generalizing b with
  | nil => cases hx
  | cons a t ih =>
      simp only [List.foldl_cons]
      rcases List.mem_cons.mp hx with h | h
      · subst h
        exact le_trans (Nat.le_max_right b x) (le_foldl_max_init t _)
      · exact ih (Nat.max b a) h

theorem getElem_replicate_lt {α : Type} (a : α) (n i : Nat) (h : i < n) :
    (List.replicate n a)[i]? = some a := by
  induction n generalizing i with
  | zero => omega
  | succ n ih =>
      cases i with
      | zero => simp [List.replicate_succ]
      | succ j => simpa [List.replicate] using ih j (by omega)

theorem length_foldl_set (nums : List Nat) (l : List Bool) :
    (nums.foldl (fun acc j => acc.set j true) l).length = l.length := by
  induction nums generalizing l with
  | nil => rfl
  | cons a t ih =>
      simp only [List.foldl_cons]
      rw [ih (l.set a true), List.length_set]

theorem foldl_set_true_get (nums : List Nat) (l : List Bool)
    (hb : ∀ x ∈ nums, x < l.length) (i : Nat) :
    (nums.foldl (fun acc j => acc.set j true) l)[i]?
      = if i ∈ nums then some true else l[i]? := by
  induction nums generalizing l with
  | nil => simp
  | cons a t ih =>
      simp only [List.foldl_cons]
      have hb' : ∀ x ∈ t, x < (l.set a true).length := by
        intro x hx
        rw [List.length_set]
        exact hb x (List.mem_cons_of_mem a hx)
      rw [ih (l.set a true) hb' ]
      by_cases hit : i ∈ t
      · simp [hit, List.mem_cons]
      · by_cases hia : i = a
        · subst hia
          have hlt : i < l.length := hb i (List.mem_cons_self i t)
          simp [hit, List.mem_cons,
            List.getElem?_set_eq_of_lt true hlt]
        · have hne : a ≠ i := fun h => hia h.symm
          simp [hit, hia, List.mem_cons, List.getElem?_set_ne hne]

/-- Claim C4: for a word with no prior record whose scan observed the
nonempty slot-index list `nums`, the rebuilt record has
`num_pronounciations = max(nums) + 1` and `downloaded[i] = true` exactly
for the observed indices, false at every gap; with files `cat.mp3`,
`cat_1.mp3`, `cat_3.mp3` the scan yields the indices `[0, 1, 3]` for
`cat` and the record has `num_pronounciations = 4`, `downloaded =
[true, true, false, true]`. -/
theorem rebuild_scan_correct :
    (∀ (nums : List Nat), nums ≠ [] →
      (rebuild_scan_record nums).num_pronounciations
          = nums.foldl Nat.max 0 + 1
      ∧ (rebuild_scan_record nums).downloaded.length
          = nums.foldl Nat.max 0 + 1
      ∧ ∀ i, i < nums.foldl Nat.max 0 + 1 →
          (rebuild_scan_record nums).downloaded[i]?
            = some (decide (i ∈ nums)))
    ∧ scanFiles ["cat.mp3", "cat_1.mp3", "cat_3.mp3"] = [("cat", [0, 1, 3])]
    ∧ rebuild_scan_record [0, 1, 3]
        = { num_pronounciations := 4, cycle_index := 0, audio_urls := [],
            speaker_info := [],
            disabled := [false, false, false, false],
            downloaded := [true, true, false, true] } := by
  refine ⟨?_, by decide, by decide⟩
  intro nums hne
  refine ⟨rfl, ?_, ?_⟩
  · simp [rebuild_scan_record, length_foldl_set]
  · intro i hi
    have hb : ∀ x ∈ nums,
        x < (List.replicate (nums.foldl Nat.max 0 + 1) false).length := by
      intro x hx
      rw [List.length_replicate]
      have := mem_le_foldl_max nums 0 x hx
      omega
    simp only [rebuild_scan_record]
    rw [foldl_set_true_get nums _ hb]
    by_cases hmem : i ∈ nums
    · simp [hmem]
    · simp [hmem, getElem_replicate_lt false _ i hi]

/-- Witness for C4 at the observed index list `[0, 1, 3]` of the example:
the gap slot 2 is marked not-downloaded. -/
theorem rebuild_scan_correct_witness :
    (rebuild_scan_record [0, 1, 3]).downloaded[2]?
      = some (decide (2 ∈ ([0, 1, 3] : List Nat))) := by
  have h := (rebuild_scan_correct.1 [0, 1, 3] (by decide)).2.2 2 (by decide)
  exact h

theorem download_batch_from_length (skip : Int) (fOk : Nat → Bool)
    (dl : List Bool) (start : Nat) :
    (download_batch_from skip fOk start dl).length = dl.length := by
  induction dl generalizing start with
  | nil => rfl
  | cons hd tl ih => simp [download_batch_from, ih]

theorem download_batch_from_get (skip : Int) (fOk : Nat → Bool)
    (dl : List Bool) (start i : Nat) (b : Bool) (h : dl[i]? = some b) :
    (download_batch_from skip fOk start dl)[i]?
      = some (if (Int.ofNat (start + i) != skip) && !b then fOk (start + i)
              else b) := by
  induction dl generalizing start i with
  | nil => simp at h
  | cons hd tl ih =>
      cases i with
      | zero =>
          simp only [List.getElem?_cons_zero, Option.some.injEq] at h
          subst h
          simp [download_batch_from]
      | succ j =>
          simp only [List.getElem?_cons_succ] at h
          have hj := ih (start + 1) j h
          simp only [download_batch_from, List.getElem?_cons_succ]
          rw [hj, show start + 1 + j = start + (j + 1) from by omega]

/-- Claim C5: in the bulk download batch (source lines 296-303, over a
record whose `downloaded` list is index-parallel to `audio_urls`), every
submitted index - one that is not the excluded index and not already
marked downloaded - ends up holding exactly its own fetch result, and
every other index (already downloaded, or the excluded one) retains its
prior value; sibling failures have no effect.  With three requested
indices of which the middle fetch fails, the result is exactly
`[true, false, true]` in request order. -/
theorem download_batch_correct :
    (∀ (dl : List Bool) (skip : Int) (fOk : Nat → Bool),
      (download_batch dl skip fOk).length = dl.length
      ∧ ∀ (i : Nat) (b : Bool), dl[i]? = some b →
          (download_batch dl skip fOk)[i]?
            = some (if Int.ofNat i ≠ skip ∧ b = false then fOk i else b))
    ∧ download_batch [false, false, false] (-1) (fun i => decide (i ≠ 1))
        = [true, false, true] := by
  refine ⟨?_, by decide⟩
  intro dl skip fOk
  refine ⟨download_batch_from_length skip fOk dl 0, ?_⟩
  intro i b h
  have hg := download_batch_from_get skip fOk dl 0 i b h
  simp only [download_batch, Nat.zero_add] at hg ⊢
  rw [hg]
  have hcond : ((Int.ofNat i != skip) && !b) = true
      ↔ (Int.ofNat i ≠ skip ∧ b = false) := by
    simp [bne_iff_ne, Bool.not_eq_true']
  by_cases h1 : Int.ofNat i ≠ skip ∧ b = false
  · rw [if_pos (hcond.mpr h1), if_pos h1]
  · rw [if_neg (fun hb => h1 (hcond.mp hb)), if_neg h1]

/-- Witness for C5: index 1 of a two-slot record was already downloaded
and keeps its value through a batch that excludes index 0. -/
theorem download_batch_correct_witness :
    (download_batch [false, true] 0 (fun _ => true))[1]? = some true := by
  have h := (download_batch_correct.1 [false, true] 0 (fun _ => true)).2 1
    true (by decide)
  simpa using h
